import Mathlib

/-!
Verification of the MCAT Trainer adaptive-selection and spaced-repetition
engine against its specification.  The weight step of the question-selection
algorithm, the session pacing monitor, the session-setup guard and the
flashcard-session response handler are embedded from the repository sources;
the server-side sampler fallback ladder, the spaced-repetition scheduler and
the leech predicate are modelled from the specification because the backend
modules are not part of the available sources.
All real-valued quantities are modelled over ℚ.
-/

namespace MCAT

/-! ## Weight Calculator (select_next_question, weight step) -/

/-- Base (pre-boost) weight of a topic, from the weight step of
`select_next_question`: a never-attempted topic (`total == 0`) gets 0.7,
otherwise `max(0.1, 1.0 - correct/total)`. -/
def baseTopicWeight (correct total : ℕ) : ℚ :=
  if total = 0 then 7/10 else max (1/10) (1 - (correct : ℚ) / (total : ℚ))

/-- Final topic weight: the base weight multiplied by the recency boost
`(1 + recency_boost * 0.5)` with `recency_boost = min(1.0, days_since_last / 14)`,
from `select_next_question`. -/
def topicWeight (correct total : ℕ) (days_since_last : ℚ) : ℚ :=
  baseTopicWeight correct total * (1 + min 1 (days_since_last / 14) * (1/2))

/-- Default weight used for a question whose topic is absent from the weight
map (`topic_weights.get(topic, 0.5)` in step 4 of `select_next_question`). -/
def defaultUnmappedWeight : ℚ := 1/2

/-! ## Session Pacing Monitor (getPacingInfo, UserSelect.jsx / StudySession) -/

/-- Timer constant from the frontend: 95 seconds per question. -/
def QUESTION_TIME_SECONDS : ℚ := 95

inductive PaceStatus where
  | ahead
  | on_track
  | behind
deriving DecidableEq, Repr

structure PacingInfo where
  expectedQuestion : ℤ
  pace : ℤ
  paceStatus : PaceStatus
deriving DecidableEq, Repr

/-- Embedding of `getPacingInfo` from the study-session page: target minutes
per question is `QUESTION_TIME_SECONDS / 60`; `expectedQuestion` is
`floor(elapsedMinutes / target) + 1`; `pace` is computed from the *unclamped*
expected question; the returned `expectedQuestion` field is clamped to the
session's total with `Math.min`. -/
def getPacingInfo (elapsedMinutes : ℚ) (currentQuestion totalQuestions : ℤ) :
    PacingInfo :=
  let targetMinutesPerQuestion : ℚ := QUESTION_TIME_SECONDS / 60
  let expectedQuestion : ℤ := ⌊elapsedMinutes / targetMinutesPerQuestion⌋ + 1
  let pace : ℤ := currentQuestion - expectedQuestion
  let paceStatus : PaceStatus :=
    if 2 ≤ pace then .ahead else if pace ≤ -2 then .behind else .on_track
  { expectedQuestion := min expectedQuestion totalQuestions
    pace := pace
    paceStatus := paceStatus }

/-- The pacing computation as the claim words it: `expected_item` is clamped
to `total_target` *before* `pace` is taken.  Written from the spec sentence,
to be compared with `getPacingInfo`. -/
def pacingPerClaim (elapsedMinutes : ℚ) (currentQuestion totalQuestions : ℤ) :
    PacingInfo :=
  let expectedQuestion : ℤ :=
    min (⌊elapsedMinutes / (QUESTION_TIME_SECONDS / 60)⌋ + 1) totalQuestions
  let pace : ℤ := currentQuestion - expectedQuestion
  let paceStatus : PaceStatus :=
    if 2 ≤ pace then .ahead else if pace ≤ -2 then .behind else .on_track
  { expectedQuestion := expectedQuestion
    pace := pace
    paceStatus := paceStatus }

/-! ## Theorems about the Weight Calculator -/

theorem baseTopicWeight_ge (correct total : ℕ) :
    1/10 ≤ baseTopicWeight correct total := by
  unfold baseTopicWeight
  split
  · norm_num
  · exact le_max_left _ _

theorem boost_nonneg {d : ℚ} (hd : 0 ≤ d) : 0 ≤ min 1 (d / 14) :=
  le_min (by norm_num) (by positivity)

/-- C1: for a topic with at least one recorded attempt, the computed weight is
`max(0.1, 1 - correct/total) * (1 + 0.5 * min(1.0, days_since_last / 14))`;
in particular 2 correct out of 10 with `days_since_last = 0` gives 0.8. -/
theorem c1_attempted_topic_weight_formula (correct total : ℕ) (d : ℚ)
    (h : 0 < total) :
    topicWeight correct total d
      = max (1/10) (1 - (correct : ℚ) / (total : ℚ))
          * (1 + (1/2) * min 1 (d / 14))
    ∧ topicWeight 2 10 0 = 4/5 := by
  constructor
  · unfold topicWeight baseTopicWeight
    rw [if_neg h.ne']
    ring
  · norm_num [topicWeight, baseTopicWeight, min_def, max_def]

theorem c1_attempted_topic_weight_formula_witness :
    0 < 10
    ∧ (MCAT.topicWeight 2 10 0
        = max (1/10) (1 - (2 : ℚ) / (10 : ℚ)) * (1 + (1/2) * min 1 (0 / 14))
      ∧ MCAT.topicWeight 2 10 0 = 4/5) :=
  ⟨by norm_num, c1_attempted_topic_weight_formula 2 10 0 (by norm_num)⟩

/-- C2: a never-attempted topic (`total == 0`) gets base weight 0.7 before the
recency boost is applied, regardless of recency; this is distinct from the 0.5
default used for questions whose topic is absent from the weight map. -/
theorem c2_unseen_topic_base_weight (correct : ℕ) (d : ℚ) :
    baseTopicWeight correct 0 = 7/10
    ∧ baseTopicWeight correct 0 ≠ defaultUnmappedWeight
    ∧ topicWeight correct 0 d = (7/10) * (1 + min 1 (d / 14) * (1/2)) := by
  refine ⟨by simp [baseTopicWeight], ?_, by simp [topicWeight, baseTopicWeight]⟩
  simp [baseTopicWeight, defaultUnmappedWeight]
  norm_num

/-- C5: with a nonnegative `days_since_last`, every topic weight is strictly
positive, and holding recency fixed the weight is non-increasing as accuracy
`correct/total` increases. -/
theorem c5_weight_positive_and_antitone_in_accuracy (d : ℚ) (hd : 0 ≤ d) :
    (∀ correct total, 0 < topicWeight correct total d)
    ∧ (∀ (c1 t1 c2 t2 : ℕ), 0 < t1 → 0 < t2 →
        (c1 : ℚ) / (t1 : ℚ) ≤ (c2 : ℚ) / (t2 : ℚ) →
        topicWeight c2 t2 d ≤ topicWeight c1 t1 d) := by
  have hb := boost_nonneg hd
  have hmult : 0 < 1 + min 1 (d / 14) * (1/2) := by nlinarith
  constructor
  · intro correct total
    have h1 := baseTopicWeight_ge correct total
    have : 0 < baseTopicWeight correct total := lt_of_lt_of_le (by norm_num) h1
    exact mul_pos this hmult
  · intro c1 t1 c2 t2 ht1 ht2 hacc
    unfold topicWeight baseTopicWeight
    rw [if_neg ht1.ne', if_neg ht2.ne']
    refine mul_le_mul_of_nonneg_right ?_ hmult.le
    exact max_le_max le_rfl (by linarith)

theorem c5_weight_positive_and_antitone_in_accuracy_witness :
    0 ≤ (0 : ℚ)
    ∧ 0 < MCAT.topicWeight 2 10 0
    ∧ MCAT.topicWeight 2 10 0 ≤ MCAT.topicWeight 0 10 0 :=
  ⟨le_refl 0,
   (c5_weight_positive_and_antitone_in_accuracy 0 le_rfl).1 2 10,
   (c5_weight_positive_and_antitone_in_accuracy 0 le_rfl).2 0 10 2 10
     (by norm_num) (by norm_num) (by norm_num)⟩

/-! ## Theorems about the Session Pacing Monitor -/

theorem floor_nineteen_over_target : ⌊(19 : ℚ) / (95/60)⌋ = 12 := by
  norm_num [Int.floor_eq_iff]

theorem paceStatus_cases (p : ℤ) :
    ((if 2 ≤ p then PaceStatus.ahead
      else if p ≤ -2 then PaceStatus.behind else PaceStatus.on_track)
        = PaceStatus.ahead ↔ 2 ≤ p)
    ∧ ((if 2 ≤ p then PaceStatus.ahead
        else if p ≤ -2 then PaceStatus.behind else PaceStatus.on_track)
          = PaceStatus.behind ↔ p ≤ -2)
    ∧ ((if 2 ≤ p then PaceStatus.ahead
        else if p ≤ -2 then PaceStatus.behind else PaceStatus.on_track)
          = PaceStatus.on_track ↔ (-2 < p ∧ p < 2)) := by
  refine ⟨?_, ?_, ?_⟩ <;> by_cases h1 : 2 ≤ p <;> by_cases h2 : p ≤ -2 <;>
    simp [h1, h2] <;> omega

/-- C4 counterexample: at 19 elapsed minutes in a 5-question session with 5
questions answered, the code's pace is computed from the *unclamped* expected
question (13), giving pace −8 and status `behind`, whereas the claim's clamped
formula gives pace 0 and status `on_track`. -/
theorem c4_counterexample :
    (getPacingInfo 19 5 5).paceStatus ≠ (pacingPerClaim 19 5 5).paceStatus
    ∧ (getPacingInfo 19 5 5).pace
        ≠ 5 - (getPacingInfo 19 5 5).expectedQuestion := by
  have h12 : ⌊(19 : ℚ) / (95/60)⌋ = 12 := floor_nineteen_over_target
  constructor
  · simp only [getPacingInfo, pacingPerClaim, QUESTION_TIME_SECONDS, h12]
    norm_num
    decide
  · simp only [getPacingInfo, QUESTION_TIME_SECONDS, h12]
    norm_num

/-- C4 amended: `pace = items_answered − expected_item` where
`expected_item = floor(elapsed_minutes / (95/60)) + 1` is *not* clamped; the
clamp to `total_target` applies only to the reported expected question; the
status is `ahead` exactly when `pace ≥ 2`, `behind` exactly when `pace ≤ −2`,
and `on_track` otherwise. -/
theorem c4_pacing_amended (e : ℚ) (i t : ℤ) :
    (getPacingInfo e i t).pace = i - (⌊e / (QUESTION_TIME_SECONDS / 60)⌋ + 1)
    ∧ (getPacingInfo e i t).expectedQuestion
        = min (⌊e / (QUESTION_TIME_SECONDS / 60)⌋ + 1) t
    ∧ ((getPacingInfo e i t).paceStatus = .ahead
        ↔ 2 ≤ (getPacingInfo e i t).pace)
    ∧ ((getPacingInfo e i t).paceStatus = .behind
        ↔ (getPacingInfo e i t).pace ≤ -2)
    ∧ ((getPacingInfo e i t).paceStatus = .on_track
        ↔ (-2 < (getPacingInfo e i t).pace ∧ (getPacingInfo e i t).pace < 2)) := by
  have h := paceStatus_cases (i - (⌊e / (QUESTION_TIME_SECONDS / 60)⌋ + 1))
  exact ⟨rfl, rfl, h.1, h.2.1, h.2.2⟩

/-! ## Weighted Candidate Sampler with fallback ladder -/

structure Question where
  id : ℕ
  subject : String
  chapter : ℕ
deriving DecidableEq, Repr

/-- Modelled from the spec: a question matches the optional subject filter
when no filter is given or its subject is listed. -/
def matchesSubject : Option (List String) → Question → Bool
  | none, _ => true
  | some subs, q => subs.contains q.subject

/-- Modelled from the spec: the candidate set is all items matching the
subject filter (when `useFilter`) minus `sessionSeenIds` (when `useSeen`);
the last-3-sessions penalty is a multiplicative weight penalty, not a hard
exclusion, so it does not affect membership. -/
def candidateSet (qs : List Question) (filter : Option (List String))
    (seen : List ℕ) (useFilter useSeen : Bool) : List Question :=
  qs.filter fun q =>
    (!useFilter || matchesSubject filter q) && (!useSeen || !seen.contains q.id)

/-- Modelled from the spec: the four candidate sets tried by the fallback
ladder, in order — full constraints, then with the last-3-sessions penalty
dropped (a weight-only penalty, so the same set), then with the subject
filter dropped, then with the session-seen exclusion dropped. -/
def ladderStage (qs : List Question) (filter : Option (List String))
    (seen : List ℕ) : ℕ → List Question
  | 0 => candidateSet qs filter seen true true
  | 1 => candidateSet qs filter seen true true
  | 2 => candidateSet qs filter seen false true
  | _ => candidateSet qs filter seen false false

inductive SelectResult where
  | ok (q : Question)
  | noCandidatesError
deriving DecidableEq, Repr

/-- Modelled from the spec: `selectNextQuestion` missing from the available
sources (backend `question_selector.py`).  The weighted random draw is
abstracted as a `pick` function that chooses an element of a nonempty
candidate list; the fallback relaxations are attempted in the fixed order of
`ladderStage`, and `NoCandidatesError` is raised only when every stage is
empty. -/
def selectNextQuestion (pick : List Question → Option Question)
    (qs : List Question) (filter : Option (List String)) (seen : List ℕ) :
    SelectResult :=
  match pick (ladderStage qs filter seen 0) with
  | some q => .ok q
  | none =>
    match pick (ladderStage qs filter seen 1) with
    | some q => .ok q
    | none =>
      match pick (ladderStage qs filter seen 2) with
      | some q => .ok q
      | none =>
        match pick (ladderStage qs filter seen 3) with
        | some q => .ok q
        | none => .noCandidatesError

/-! ## Theorems about the fallback ladder -/

theorem ladderStage_three_eq (qs : List Question) (sf : Option (List String))
    (seen : List ℕ) : ladderStage qs sf seen 3 = qs := by
  simp [ladderStage, candidateSet]

theorem pick_nil_eq_none {pick : List Question → Option Question}
    (hmem : ∀ l q, pick l = some q → q ∈ l) : pick [] = none := by
  cases hp : pick [] with
  | none => rfl
  | some q => exact absurd (hmem [] q hp) (by simp)

theorem stage_nil_of_pick_none {pick : List Question → Option Question}
    (hsome : ∀ l, l ≠ [] → (pick l).isSome = true)
    {l : List Question} (h : pick l = none) : l = [] := by
  by_contra hne
  have := hsome l hne
  rw [h] at this
  simp at this

theorem contains_false_of_mem_candidateSet {qs : List Question}
    {sf : Option (List String)} {seen : List ℕ} {uf : Bool} {q : Question}
    (h : q ∈ candidateSet qs sf seen uf true) :
    seen.contains q.id = false := by
  simp only [candidateSet, List.mem_filter, Bool.and_eq_true, Bool.not_true,
    Bool.false_or, Bool.not_eq_true'] at h
  exact h.2.2

/-- C3: the fallback relaxations are attempted in the fixed order
penalty-drop, filter-drop, seen-drop; `NoCandidatesError` is returned iff the
candidate set is still empty after all three relaxations, and a returned
question always comes from the first non-empty stage. -/
theorem c3_fallback_ladder_order (pick : List Question → Option Question)
    (qs : List Question) (sf : Option (List String)) (seen : List ℕ)
    (hmem : ∀ l q, pick l = some q → q ∈ l)
    (hsome : ∀ l, l ≠ [] → (pick l).isSome = true) :
    (selectNextQuestion pick qs sf seen = .noCandidatesError
      ↔ ladderStage qs sf seen 3 = [])
    ∧ (∀ q, selectNextQuestion pick qs sf seen = .ok q →
        ∃ k, k ≤ 3 ∧ pick (ladderStage qs sf seen k) = some q
          ∧ q ∈ ladderStage qs sf seen k
          ∧ ∀ j, j < k → ladderStage qs sf seen j = []) := by
  constructor
  · constructor
    · intro hsel
      unfold selectNextQuestion at hsel
      cases h0 : pick (ladderStage qs sf seen 0) with
      | some q0 => simp only [h0] at hsel; exact SelectResult.noConfusion hsel
      | none =>
        simp only [h0] at hsel
        cases h1 : pick (ladderStage qs sf seen 1) with
        | some q1 => simp only [h1] at hsel; exact SelectResult.noConfusion hsel
        | none =>
          simp only [h1] at hsel
          cases h2 : pick (ladderStage qs sf seen 2) with
          | some q2 => simp only [h2] at hsel; exact SelectResult.noConfusion hsel
          | none =>
            simp only [h2] at hsel
            cases h3 : pick (ladderStage qs sf seen 3) with
            | some q3 => simp only [h3] at hsel; exact SelectResult.noConfusion hsel
            | none => exact stage_nil_of_pick_none hsome h3
    · intro h3
      have hq : qs = [] := by rw [← ladderStage_three_eq qs sf seen]; exact h3
      subst hq
      have hpn : pick [] = none := pick_nil_eq_none hmem
      simp [selectNextQuestion, ladderStage, candidateSet, hpn]
  · intro q hsel
    unfold selectNextQuestion at hsel
    cases h0 : pick (ladderStage qs sf seen 0) with
    | some q0 =>
      simp only [h0, SelectResult.ok.injEq] at hsel
      subst hsel
      exact ⟨0, by omega, h0, hmem _ _ h0, fun j hj => absurd hj (by omega)⟩
    | none =>
      simp only [h0] at hsel
      have e0 := stage_nil_of_pick_none hsome h0
      cases h1 : pick (ladderStage qs sf seen 1) with
      | some q1 =>
        simp only [h1, SelectResult.ok.injEq] at hsel
        subst hsel
        refine ⟨1, by omega, h1, hmem _ _ h1, ?_⟩
        intro j hj
        interval_cases j
        exact e0
      | none =>
        simp only [h1] at hsel
        have e1 := stage_nil_of_pick_none hsome h1
        cases h2 : pick (ladderStage qs sf seen 2) with
        | some q2 =>
          simp only [h2, SelectResult.ok.injEq] at hsel
          subst hsel
          refine ⟨2, by omega, h2, hmem _ _ h2, ?_⟩
          intro j hj
          interval_cases j
          · exact e0
          · exact e1
        | none =>
          simp only [h2] at hsel
          have e2 := stage_nil_of_pick_none hsome h2
          cases h3 : pick (ladderStage qs sf seen 3) with
          | some q3 =>
            simp only [h3, SelectResult.ok.injEq] at hsel
            subst hsel
            refine ⟨3, by omega, h3, hmem _ _ h3, ?_⟩
            intro j hj
            interval_cases j
            · exact e0
            · exact e1
            · exact e2
          | none =>
            simp only [h3] at hsel
            exact SelectResult.noConfusion hsel

/-- C6: a returned question can have an id in `sessionSeenIds` only when
every stage that retains the session-seen exclusion was empty, i.e. both
earlier relaxations failed and the third (dropping the exclusion) was in
effect. -/
theorem c6_seen_only_after_exhaustion (pick : List Question → Option Question)
    (qs : List Question) (sf : Option (List String)) (seen : List ℕ)
    (hmem : ∀ l q, pick l = some q → q ∈ l)
    (hsome : ∀ l, l ≠ [] → (pick l).isSome = true)
    (q : Question) (hsel : selectNextQuestion pick qs sf seen = .ok q)
    (hseen : seen.contains q.id = true) :
    ladderStage qs sf seen 0 = [] ∧ ladderStage qs sf seen 1 = []
      ∧ ladderStage qs sf seen 2 = [] := by
  unfold selectNextQuestion at hsel
  cases h0 : pick (ladderStage qs sf seen 0) with
  | some q0 =>
    simp only [h0, SelectResult.ok.injEq] at hsel
    subst hsel
    have := contains_false_of_mem_candidateSet (hmem _ _ h0)
    rw [hseen] at this
    exact absurd this (by simp)
  | none =>
    simp only [h0] at hsel
    cases h1 : pick (ladderStage qs sf seen 1) with
    | some q1 =>
      simp only [h1, SelectResult.ok.injEq] at hsel
      subst hsel
      have := contains_false_of_mem_candidateSet (hmem _ _ h1)
      rw [hseen] at this
      exact absurd this (by simp)
    | none =>
      simp only [h1] at hsel
      cases h2 : pick (ladderStage qs sf seen 2) with
      | some q2 =>
        simp only [h2, SelectResult.ok.injEq] at hsel
        subst hsel
        have := contains_false_of_mem_candidateSet (hmem _ _ h2)
        rw [hseen] at this
        exact absurd this (by simp)
      | none =>
        simp only [h2] at hsel
        exact ⟨stage_nil_of_pick_none hsome h0,
          stage_nil_of_pick_none hsome h1,
          stage_nil_of_pick_none hsome h2⟩

/-! ### Concrete sampler scenario (spec example 5) -/

def demoQuestions : List Question :=
  [⟨1, "Biology", 1⟩, ⟨2, "Biology", 1⟩, ⟨3, "Biology", 2⟩,
   ⟨4, "Biology", 2⟩, ⟨5, "Biology", 3⟩]

def demoSeen : List ℕ := [1, 2, 3, 4, 5]

def demoFilter : Option (List String) := some ["Biology"]

theorem head?_mem (l : List Question) (q : Question) (h : l.head? = some q) :
    q ∈ l := by
  cases l with
  | nil => simp at h
  | cons a t =>
    simp at h
    subst h
    exact List.mem_cons_self a t

theorem head?_isSome_of_ne_nil (l : List Question) (h : l ≠ []) :
    (l.head?).isSome = true := by
  cases l with
  | nil => exact absurd rfl h
  | cons a t => rfl

theorem c3_fallback_ladder_order_witness :
    MCAT.ladderStage demoQuestions demoFilter demoSeen 3 ≠ []
    ∧ MCAT.selectNextQuestion List.head? demoQuestions demoFilter demoSeen
        ≠ SelectResult.noCandidatesError :=
  ⟨by decide,
   fun h => absurd
     ((c3_fallback_ladder_order List.head? demoQuestions demoFilter demoSeen
        head?_mem head?_isSome_of_ne_nil).1.mp h)
     (by decide)⟩

theorem c6_seen_only_after_exhaustion_witness :
    MCAT.selectNextQuestion List.head? demoQuestions demoFilter demoSeen
        = SelectResult.ok ⟨1, "Biology", 1⟩
    ∧ demoSeen.contains (1 : ℕ) = true
    ∧ (MCAT.ladderStage demoQuestions demoFilter demoSeen 0 = []
       ∧ MCAT.ladderStage demoQuestions demoFilter demoSeen 1 = []
       ∧ MCAT.ladderStage demoQuestions demoFilter demoSeen 2 = []) :=
  ⟨by decide, by decide,
   c6_seen_only_after_exhaustion List.head? demoQuestions demoFilter demoSeen
     head?_mem head?_isSome_of_ne_nil ⟨1, "Biology", 1⟩ (by decide) (by decide)⟩

/-! ## Spaced-Repetition Scheduler -/

inductive Tier where
  | New
  | Learning
  | Mastered
deriving DecidableEq, Repr

/-- Per-(user, card) flashcard review state from the data model. -/
structure FlashcardReviewState where
  streak : ℕ
  wrong_count : ℕ
  interval_days : ℚ
  due_at : ℚ
  tier : Tier
deriving DecidableEq, Repr

/-- Maximum interval, documented default 180 days. -/
def intervalCap : ℚ := 180

/-- Interval growth factor, documented default 2.5. -/
def growthFactor : ℚ := 5/2

/-- Modelled from the spec: effect of a correct review (the backend scheduler
is missing from the available sources).  `streak += 1`;
`interval_days = max(1, previous_interval * 2.5)` capped at 180; tier becomes
Mastered when `streak >= 3` and the interval reaches the mastery threshold,
otherwise a New card moves to Learning; `due_at = now + interval_days`. -/
def reviewCorrect (masteryThreshold now : ℚ) (s : FlashcardReviewState) :
    FlashcardReviewState :=
  let streak := s.streak + 1
  let interval := min intervalCap (max 1 (s.interval_days * growthFactor))
  let tier :=
    if 3 ≤ streak ∧ masteryThreshold ≤ interval then Tier.Mastered
    else if s.tier = Tier.New then Tier.Learning else s.tier
  { s with streak := streak, interval_days := interval, tier := tier,
           due_at := now + interval }

/-- Modelled from the spec: effect of an incorrect review. `streak = 0`;
`wrong_count += 1`; `interval_days = 1`; tier demoted to Learning;
`due_at = now + 1 day`. -/
def reviewIncorrect (now : ℚ) (s : FlashcardReviewState) :
    FlashcardReviewState :=
  { s with streak := 0, wrong_count := s.wrong_count + 1, interval_days := 1,
           tier := Tier.Learning, due_at := now + 1 }

/-- A run of `n` consecutive correct reviews. -/
def correctRun (masteryThreshold now : ℚ) (s : FlashcardReviewState) :
    ℕ → FlashcardReviewState
  | 0 => s
  | n + 1 => reviewCorrect masteryThreshold now (correctRun masteryThreshold now s n)

/-! ## Leech Detector -/

/-- Modelled from the spec: `isLeech(state) = state.wrong_count >= threshold`
(the backend leech query is missing from the available sources). -/
def isLeech (threshold : ℕ) (s : FlashcardReviewState) : Bool :=
  threshold ≤ s.wrong_count

/-- Default leech threshold, from the frontend API client default
`minWrong = 3` in `getLeeches`. -/
def defaultLeechThreshold : ℕ := 3

/-! ## Theorems about the Scheduler -/

theorem reviewCorrect_interval_step (masteryThreshold now : ℚ)
    (s : FlashcardReviewState) (h : s.interval_days ≤ 180) :
    s.interval_days ≤ (reviewCorrect masteryThreshold now s).interval_days
    ∧ (reviewCorrect masteryThreshold now s).interval_days ≤ 180 := by
  unfold reviewCorrect intervalCap growthFactor
  constructor
  · simp only
    rcases le_or_lt s.interval_days 0 with hng | hpos
    · calc s.interval_days ≤ 1 := by linarith
        _ ≤ min 180 (max 1 (s.interval_days * (5/2))) :=
          le_min (by norm_num) (le_max_left _ _)
    · refine le_min h ?_
      calc s.interval_days ≤ s.interval_days * (5/2) := by nlinarith
        _ ≤ max 1 (s.interval_days * (5/2)) := le_max_right _ _
  · exact min_le_left _ _

theorem correctRun_interval_le (masteryThreshold now : ℚ)
    (s : FlashcardReviewState) (h : s.interval_days ≤ 180) :
    ∀ n, (correctRun masteryThreshold now s n).interval_days ≤ 180 := by
  intro n
  induction n with
  | zero => exact h
  | succ k ih =>
    exact (reviewCorrect_interval_step masteryThreshold now _ ih).2

/-- C7: starting from any state with interval at most the 180-day cap,
`interval_days` is monotonically non-decreasing across consecutive correct
reviews (each correct review setting `max(1, prev * 2.5)` capped at 180), and
one incorrect review resets `interval_days` to 1, zeroes the streak,
increments `wrong_count`, demotes the tier to Learning, and schedules
`due_at = now + 1`. -/
theorem c7_interval_monotone_and_incorrect_resets (masteryThreshold now : ℚ)
    (s : FlashcardReviewState) (h : s.interval_days ≤ 180) :
    (∀ i j, i ≤ j →
      (correctRun masteryThreshold now s i).interval_days
        ≤ (correctRun masteryThreshold now s j).interval_days)
    ∧ (∀ t, (reviewCorrect masteryThreshold t s).interval_days
        = min 180 (max 1 (s.interval_days * (5/2))))
    ∧ (∀ t, (reviewIncorrect t s).interval_days = 1
        ∧ (reviewIncorrect t s).streak = 0
        ∧ (reviewIncorrect t s).wrong_count = s.wrong_count + 1
        ∧ (reviewIncorrect t s).tier = Tier.Learning
        ∧ (reviewIncorrect t s).due_at = t + 1) := by
  refine ⟨?_, fun t => rfl, fun t => ⟨rfl, rfl, rfl, rfl, rfl⟩⟩
  intro i j
  induction j with
  | zero =>
    intro hij
    obtain rfl : i = 0 := Nat.le_zero.mp hij
    exact le_rfl
  | succ k ih =>
    intro hij
    rcases eq_or_lt_of_le hij with rfl | hlt
    · exact le_rfl
    · have hik : i ≤ k := Nat.lt_succ_iff.mp hlt
      exact le_trans (ih hik)
        (reviewCorrect_interval_step masteryThreshold now _
          (correctRun_interval_le masteryThreshold now s h k)).1

theorem c7_interval_monotone_and_incorrect_resets_witness :
    (⟨0, 0, 1, 0, Tier.New⟩ : FlashcardReviewState).interval_days ≤ 180
    ∧ (MCAT.correctRun 7 0 ⟨0, 0, 1, 0, Tier.New⟩ 1).interval_days
        ≤ (MCAT.correctRun 7 0 ⟨0, 0, 1, 0, Tier.New⟩ 3).interval_days
    ∧ (MCAT.reviewIncorrect 0 ⟨0, 0, 1, 0, Tier.New⟩).interval_days = 1 :=
  ⟨by norm_num,
   (c7_interval_monotone_and_incorrect_resets 7 0 ⟨0, 0, 1, 0, Tier.New⟩
      (by norm_num)).1 1 3 (by norm_num),
   ((c7_interval_monotone_and_incorrect_resets 7 0 ⟨0, 0, 1, 0, Tier.New⟩
      (by norm_num)).2.2 0).1⟩

/-! ## Theorems about the Leech Detector -/

/-- C8: `isLeech` holds iff `wrong_count >= threshold`, so for a positive
threshold it is false at `wrong_count = threshold - 1` (and below) and first
becomes true exactly at `wrong_count = threshold`. -/
theorem c8_isLeech_flips_exactly_at_threshold (threshold : ℕ)
    (s : FlashcardReviewState) (h : 1 ≤ threshold) :
    (isLeech threshold s = true ↔ threshold ≤ s.wrong_count)
    ∧ (s.wrong_count = threshold - 1 → isLeech threshold s = false)
    ∧ (s.wrong_count = threshold → isLeech threshold s = true)
    ∧ (s.wrong_count < threshold → isLeech threshold s = false) := by
  unfold isLeech
  refine ⟨by simp, ?_, ?_, ?_⟩ <;> intro hw <;> simp <;> omega

theorem c8_isLeech_flips_exactly_at_threshold_witness :
    1 ≤ MCAT.defaultLeechThreshold
    ∧ (MCAT.isLeech MCAT.defaultLeechThreshold ⟨0, 2, 1, 0, Tier.Learning⟩
        = false)
    ∧ (MCAT.isLeech MCAT.defaultLeechThreshold ⟨0, 3, 1, 0, Tier.Learning⟩
        = true) :=
  ⟨by decide,
   (c8_isLeech_flips_exactly_at_threshold MCAT.defaultLeechThreshold
      ⟨0, 2, 1, 0, Tier.Learning⟩ (by decide)).2.1 (by decide),
   (c8_isLeech_flips_exactly_at_threshold MCAT.defaultLeechThreshold
      ⟨0, 3, 1, 0, Tier.Learning⟩ (by decide)).2.2.1 (by decide)⟩

/-! ## Session setup (handleStart, SessionSetup.jsx) -/

inductive StudyMode where
  | mixed
  | focused
deriving DecidableEq, Repr

/-- Result of `parseInt(customCount, 10)` on the number input's value: either
NaN (e.g. for the valid number-input string ".5") or an integer (parseInt
truncates, it never yields a fraction). -/
inductive ParsedCount where
  | nan
  | num (z : ℤ)
deriving DecidableEq, Repr

/-- JavaScript `<` against an integer literal: NaN compares false with
everything. -/
def jsLtInt : ParsedCount → ℤ → Bool
  | .nan, _ => false
  | .num z, c => decide (z < c)

/-- JavaScript `>` against an integer literal: NaN compares false with
everything. -/
def jsGtInt : ParsedCount → ℤ → Bool
  | .nan, _ => false
  | .num z, c => decide (c < z)

/-- Payload of `api.createSession` as built by `handleStart`; the count field
carries the JavaScript number, which may be NaN. -/
structure SessionRequest where
  user_id : ℕ
  mode : StudyMode
  subjects : List String
  total_questions : ParsedCount
deriving DecidableEq, Repr

/-- Whether a JavaScript count value lies in the inclusive range 1..100 (NaN
does not). -/
def countInRange : ParsedCount → Bool
  | .nan => false
  | .num z => decide (1 ≤ z ∧ z ≤ 100)

/-- The requested count: `parseInt` of the custom input when that string is
non-empty (possibly NaN), else the selected preset. -/
def finalCountOf (customCount : Option ParsedCount) (questionCount : ℤ) :
    ParsedCount :=
  match customCount with
  | some c => c
  | none => ParsedCount.num questionCount

/-- Embedding of `handleStart` from the session setup page: the final count is
`parseInt` of the custom input when that string is non-empty (possibly NaN),
else the selected preset; the guard `finalCount < 1 || finalCount > 100` uses
JavaScript comparisons, under which both are false for NaN; an empty subject
selection is rejected; otherwise `api.createSession` is called with the
assembled request (returned as `some`). -/
def handleStart (uid : ℕ) (customCount : Option ParsedCount)
    (questionCount : ℤ) (mode : StudyMode)
    (subjects selectedSubjects : List String) : Option SessionRequest :=
  let finalCount := finalCountOf customCount questionCount
  if jsLtInt finalCount 1 || jsGtInt finalCount 100 then none
  else
    let subjectsToUse :=
      match mode with
      | .mixed => subjects
      | .focused => selectedSubjects
    if subjectsToUse.isEmpty then none
    else some { user_id := uid, mode := mode, subjects := subjectsToUse,
                total_questions := finalCount }

/-- C9 counterexample: a custom input that parses to NaN (such as ".5")
passes the range guard — `NaN < 1` and `NaN > 100` are both false — and a
session is created with `total_questions = NaN`, which is not in 1..100. -/
theorem c9_counterexample :
    handleStart 1 (some ParsedCount.nan) 20 StudyMode.mixed ["Biology"] []
      = some { user_id := 1, mode := StudyMode.mixed, subjects := ["Biology"],
               total_questions := ParsedCount.nan }
    ∧ countInRange ParsedCount.nan = false :=
  ⟨rfl, rfl⟩

/-- C9 amended: when the requested count parses to a real number below 1 or
above 100 no session is created, and every session created with a numeric
count has it in 1..100; but a custom input parsing to NaN passes the guard,
and any session it produces carries `total_questions = NaN`, outside the
range. -/
theorem c9_session_count_bounds_amended (uid : ℕ)
    (customCount : Option ParsedCount) (questionCount : ℤ) (mode : StudyMode)
    (subjects selectedSubjects : List String) :
    (∀ z : ℤ,
      finalCountOf customCount questionCount = ParsedCount.num z →
      z < 1 ∨ 100 < z →
      handleStart uid customCount questionCount mode subjects selectedSubjects
        = none)
    ∧ (∀ req z,
        handleStart uid customCount questionCount mode subjects selectedSubjects
          = some req →
        req.total_questions = ParsedCount.num z →
        1 ≤ z ∧ z ≤ 100)
    ∧ (∀ req,
        handleStart uid (some ParsedCount.nan) questionCount mode subjects
          selectedSubjects = some req →
        req.total_questions = ParsedCount.nan) := by
  refine ⟨?_, ?_, ?_⟩
  · intro z hz hout
    unfold handleStart
    simp only []
    rw [hz]
    simp only [jsLtInt, jsGtInt]
    rcases hout with h | h
    · simp [h]
    · simp [h]
  · intro req z hreq hz
    unfold handleStart at hreq
    simp only [] at hreq
    split at hreq
    · exact Option.noConfusion hreq
    · next hguard =>
      split at hreq
      · exact Option.noConfusion hreq
      · have h := Option.some.inj hreq
        subst h
        have hz2 : finalCountOf customCount questionCount
            = ParsedCount.num z := hz
        rw [hz2] at hguard
        simp only [jsLtInt, jsGtInt, Bool.or_eq_true, decide_eq_true_eq] at hguard
        push_neg at hguard
        omega
  · intro req hreq
    unfold handleStart at hreq
    simp only [] at hreq
    split at hreq
    · exact Option.noConfusion hreq
    · split at hreq
      · exact Option.noConfusion hreq
      · have h := Option.some.inj hreq
        subst h
        rfl

theorem c9_session_count_bounds_amended_witness :
    MCAT.handleStart 1 (some (ParsedCount.num 101)) 20 StudyMode.mixed
        ["Biology"] [] = none
    ∧ (1 ≤ (20 : ℤ) ∧ (20 : ℤ) ≤ 100)
    ∧ ({ user_id := 1, mode := StudyMode.mixed, subjects := ["Biology"],
         total_questions := ParsedCount.nan } : SessionRequest).total_questions
        = ParsedCount.nan :=
  ⟨(c9_session_count_bounds_amended 1 (some (ParsedCount.num 101)) 20
      StudyMode.mixed ["Biology"] []).1 101 rfl (Or.inr (by norm_num)),
   (c9_session_count_bounds_amended 1 none 20 StudyMode.mixed
      ["Biology"] []).2.1
     { user_id := 1, mode := StudyMode.mixed, subjects := ["Biology"],
       total_questions := ParsedCount.num 20 } 20 (by decide) rfl,
   (c9_session_count_bounds_amended 1 (some ParsedCount.nan) 20
      StudyMode.mixed ["Biology"] []).2.2
     { user_id := 1, mode := StudyMode.mixed, subjects := ["Biology"],
       total_questions := ParsedCount.nan } (by decide)⟩

/-! ## Flashcard session response handler (handleResponse, FlashcardSession) -/

/-- Local tallies of a flashcard session plus a count of reviews actually
recorded by the backend. -/
structure FlashcardSessionState where
  correctCount : ℕ
  reviewedCount : ℕ
  currentIndex : ℕ
  backendReviewCount : ℕ
deriving DecidableEq, Repr

/-- Embedding of `handleResponse` from the flashcard session page: the
`submitFlashcardReview` call is wrapped in try/catch whose catch only logs, so
whether it succeeded (`submitOk`) has no effect on the rest: `correctCount` is
incremented when the response was correct, `reviewedCount` is always
incremented, and unless the card was the last one the next card is shown by
advancing `currentIndex`.  The backend count advances only on a successful
submit. -/
def handleResponse (submitOk correct isLast : Bool)
    (s : FlashcardSessionState) : FlashcardSessionState :=
  let afterSubmit :=
    if submitOk then { s with backendReviewCount := s.backendReviewCount + 1 }
    else s
  let afterCorrect :=
    if correct then { afterSubmit with correctCount := afterSubmit.correctCount + 1 }
    else afterSubmit
  let afterReviewed :=
    { afterCorrect with reviewedCount := afterCorrect.reviewedCount + 1 }
  if isLast then afterReviewed
  else { afterReviewed with currentIndex := afterReviewed.currentIndex + 1 }

/-- C10: a failed `submitFlashcardReview` is swallowed: the local tallies and
card advance are identical to the success case, `reviewedCount` always
increments (and `correctCount` when the response was correct), the next card
is shown when one remains, and on failure the backend count does not advance,
so the local tally overtakes the backend count. -/
theorem c10_failed_submit_swallowed (submitOk correct isLast : Bool)
    (s : FlashcardSessionState) :
    ((handleResponse submitOk correct isLast s).reviewedCount
        = s.reviewedCount + 1)
    ∧ ((handleResponse submitOk correct isLast s).correctCount
        = s.correctCount + if correct then 1 else 0)
    ∧ (isLast = false →
        (handleResponse submitOk correct isLast s).currentIndex
          = s.currentIndex + 1)
    ∧ (submitOk = false →
        (handleResponse submitOk correct isLast s).backendReviewCount
          = s.backendReviewCount)
    ∧ (submitOk = false → s.backendReviewCount ≤ s.reviewedCount →
        (handleResponse submitOk correct isLast s).backendReviewCount
          < (handleResponse submitOk correct isLast s).reviewedCount) := by
  cases submitOk <;> cases correct <;> cases isLast <;>
    simp [handleResponse] <;> omega

theorem c10_failed_submit_swallowed_witness :
    ((MCAT.handleResponse false true false ⟨0, 0, 0, 0⟩).reviewedCount = 1)
    ∧ ((MCAT.handleResponse false true false ⟨0, 0, 0, 0⟩).currentIndex = 1)
    ∧ ((MCAT.handleResponse false true false ⟨0, 0, 0, 0⟩).backendReviewCount
        = 0)
    ∧ ((MCAT.handleResponse false true false ⟨0, 0, 0, 0⟩).backendReviewCount
        < (MCAT.handleResponse false true false ⟨0, 0, 0, 0⟩).reviewedCount) :=
  ⟨(c10_failed_submit_swallowed false true false ⟨0, 0, 0, 0⟩).1,
   (c10_failed_submit_swallowed false true false ⟨0, 0, 0, 0⟩).2.2.1 rfl,
   (c10_failed_submit_swallowed false true false ⟨0, 0, 0, 0⟩).2.2.2.1 rfl,
   (c10_failed_submit_swallowed false true false ⟨0, 0, 0, 0⟩).2.2.2.2 rfl
     (Nat.le_refl 0)⟩

end MCAT
